import Mathlib

/-!
# Renaming a table constraint

A shallow embedding of `pkg/sql/rename_constraint.go`: the planning step
`planner.RenameConstraint` and the execution step
`renameConstraintNode.startExec`, followed by the properties of the two
functions.

Conventions of the embedding.

* A Go pointer or interface value that may be `nil` is an `Option`.
* A Go `map[string]V` is an association list; the two-valued lookup
  `_, ok := m[k]` is `List.lookup k m`, and `ok` is `Option.isSome` of it.
  The `nil` map is `[]`.
* Go `error` values are compared by identity.  A value built inside this file
  (`pgerror.NewError`, `fmt.Errorf`) is therefore never the same value as one
  handed back by a collaborator; the type `error E` keeps the three origins
  apart, `E` being the type of the collaborators' error values.
* The methods of other packages that the file calls are parameters
  (`sqlbase.DescriptorMethods`, the function fields of `planner`).  Every call
  of one of them is recorded, in program order, in a list of `call`s.
* `startExec` works on the descriptor behind the pointer `n.tableDesc`; the
  embedding returns the descriptor as it is after the call.
-/

namespace sql

/-! ## Imported packages -/

namespace pgerror

/-- Error codes of package `pgerror` used by the source. -/
inductive Code where
  | CodeSyntaxError
deriving DecidableEq, Repr

/-- The value built by `pgerror.NewError(code, msg)`. -/
structure Error where
  code : Code
  msg : String
deriving DecidableEq, Repr

/-- Constructor `pgerror.NewError`. -/
def NewError (code : Code) (msg : String) : Error := ⟨code, msg⟩

end pgerror

/-- Go `error` values seen by the file: a `pgerror` value, a value built by
`fmt.Errorf`, or a value returned by a collaborator. -/
inductive error (E : Type) where
  | pg (e : pgerror.Error)
  | errorString (msg : String)
  | ext (e : E)
deriving DecidableEq, Repr

namespace fmt

/-- Function `fmt.Errorf`, applied to the already formatted message. -/
def Errorf {E : Type} (msg : String) : error E := error.errorString msg

end fmt

namespace privilege

/-- Modelled from the spec: the privilege kinds named by the source
(`CREATE` is the one checked; the doc comment of `RenameConstraint` also names
`ALTER` and `INSERT`). -/
inductive Kind where
  | CREATE
  | ALTER
  | INSERT
deriving DecidableEq, Repr

end privilege

namespace tree

/-- The statement `ALTER TABLE <Table> RENAME CONSTRAINT <Name> TO <NewName>`,
with its `IF EXISTS` flag: the fields of `tree.RenameConstraint` the source
reads. -/
structure RenameConstraint where
  Table : String
  Name : String
  NewName : String
  IfExists : Bool
deriving DecidableEq, Repr

end tree

namespace sqlbase

/-- Modelled from the spec: a constraint entry `{name, kind, definition}`. -/
structure ConstraintEntry where
  name : String
  kind : String
  definition : String
deriving DecidableEq, Repr

/-- Modelled from the spec: the table descriptor, versioned schema metadata of
one table that owns an ordered collection of constraint entries. -/
structure MutableTableDescriptor where
  Name : String
  Version : Nat
  Constraints : List ConstraintEntry
deriving DecidableEq, Repr

/-- The name-keyed mapping returned by `GetConstraintInfo`
(a Go `map[string]...`). -/
abbrev ConstraintCatalog := List (String × ConstraintEntry)

/-- Modelled from the spec: the two descriptor methods called by `startExec`.
`GetConstraintInfo` reads the catalog view off the descriptor and returns it
with an error value; `Validate` checks a descriptor and returns an error value
or `nil`.  Both only read the descriptor.  The context, transaction and
settings arguments of the Go calls are fixed inside the two functions. -/
structure DescriptorMethods (E : Type) where
  GetConstraintInfo : MutableTableDescriptor → ConstraintCatalog × Option E
  Validate : MutableTableDescriptor → Option E

/-- Modelled from the spec: the catalog view derived from the descriptor, each
entry keyed by its name. -/
def catalogOf (desc : MutableTableDescriptor) : ConstraintCatalog :=
  desc.Constraints.map (fun e => (e.name, e))

end sqlbase

/-! ## The file itself -/

/-- Resolution kinds passed to `ResolveMutableTableDescriptor`. -/
inductive requiredType where
  | requireTableDesc
deriving DecidableEq, Repr

/-- Calls made to collaborators, with the arguments that matter. -/
inductive call where
  | ResolveMutableTableDescriptor (table : String) (required : Bool) (kind : requiredType)
  | CheckPrivilege (table : String) (priv : privilege.Kind)
  | GetConstraintInfo
  | Validate
deriving DecidableEq, Repr

/-- Package variable `errEmptyConstraintName`. -/
def errEmptyConstraintName {E : Type} : error E :=
  error.pg (pgerror.NewError pgerror.Code.CodeSyntaxError "empty constraint name")

/-- Struct `renameConstraintNode`. -/
structure renameConstraintNode where
  n : tree.RenameConstraint
  tableDesc : sqlbase.MutableTableDescriptor
deriving DecidableEq, Repr

/-- Plan nodes built by the file: the zero node and the rename node. -/
inductive planNode where
  | zeroNode (columns : Option (List String))
  | renameConstraint (node : renameConstraintNode)
deriving DecidableEq, Repr

/-- Modelled from the spec: `newZeroNode`, the constructor of the neutral
zero-effect plan node. -/
def newZeroNode (columns : Option (List String)) : planNode := planNode.zeroNode columns

/-- The planner: the descriptors it can see, and the two methods used by
`RenameConstraint`.  Resolution returns a descriptor pointer and an error. -/
structure planner (E : Type) where
  tables : List (String × sqlbase.MutableTableDescriptor)
  ResolveMutableTableDescriptor :
    List (String × sqlbase.MutableTableDescriptor) → String → Bool → requiredType →
      Option sqlbase.MutableTableDescriptor × Option E
  CheckPrivilege : sqlbase.MutableTableDescriptor → privilege.Kind → Option E

/-- What `planner.RenameConstraint` returns (`node`, `err`), the planner's
descriptors after the call and the collaborator calls made. -/
structure planResult (E : Type) where
  node : Option planNode
  err : Option (error E)
  tables : List (String × sqlbase.MutableTableDescriptor)
  calls : List call

/-- Method `planner.RenameConstraint`. -/
def planner.RenameConstraint {E : Type} (p : planner E) (n : tree.RenameConstraint) :
    planResult E :=
  let c1 := call.ResolveMutableTableDescriptor n.Table (!n.IfExists) requiredType.requireTableDesc
  match p.ResolveMutableTableDescriptor p.tables n.Table (!n.IfExists)
      requiredType.requireTableDesc with
  | (_, some err) => ⟨none, some (error.ext err), p.tables, [c1]⟩
  | (none, none) => ⟨some (newZeroNode none), none, p.tables, [c1]⟩
  | (some tableDesc, none) =>
    let c2 := call.CheckPrivilege tableDesc.Name privilege.Kind.CREATE
    match p.CheckPrivilege tableDesc privilege.Kind.CREATE with
    | some err => ⟨none, some (error.ext err), p.tables, [c1, c2]⟩
    | none => ⟨some (planNode.renameConstraint ⟨n, tableDesc⟩), none, p.tables, [c1, c2]⟩

/-- What `startExec` returns (`err`), the descriptor behind `n.tableDesc` after
the call and the collaborator calls made. -/
structure execResult (E : Type) where
  err : Option (error E)
  tableDesc : sqlbase.MutableTableDescriptor
  calls : List call

/-- Method `renameConstraintNode.startExec`.  The error of `GetConstraintInfo`
is dropped, as in the source; the final bare `return` is the `nil` error. -/
def renameConstraintNode.startExec {E : Type} (d : sqlbase.DescriptorMethods E)
    (n : renameConstraintNode) : execResult E :=
  let tableDesc := n.tableDesc
  if n.n.NewName = "" then
    ⟨some errEmptyConstraintName, tableDesc, []⟩
  else
    let constraintsList := (d.GetConstraintInfo tableDesc).1
    if (constraintsList.lookup n.n.Name).isNone then
      ⟨some (fmt.Errorf ("constraint " ++ n.n.Name ++ " does not exist")), tableDesc,
        [call.GetConstraintInfo]⟩
    else if (constraintsList.lookup n.n.NewName).isNone then
      ⟨some (fmt.Errorf ("constraint name " ++ n.n.NewName ++ " already exists")), tableDesc,
        [call.GetConstraintInfo]⟩
    else
      match d.Validate tableDesc with
      | some err => ⟨some (error.ext err), tableDesc, [call.GetConstraintInfo, call.Validate]⟩
      | none => ⟨none, tableDesc, [call.GetConstraintInfo, call.Validate]⟩

/-! ## Sample data -/

/-- Primary-key entry `pk`. -/
def pkEntry : sqlbase.ConstraintEntry := ⟨"pk", "PRIMARY KEY", "PRIMARY KEY (id ASC)"⟩

/-- Unique entry `uq1`. -/
def uq1Entry : sqlbase.ConstraintEntry := ⟨"uq1", "UNIQUE", "UNIQUE (a ASC)"⟩

/-- Table `T` with constraints `pk` and `uq1`. -/
def tableT : sqlbase.MutableTableDescriptor := ⟨"T", 1, [pkEntry, uq1Entry]⟩

/-- Table with no constraint. -/
def tableEmpty : sqlbase.MutableTableDescriptor := ⟨"E", 1, []⟩

/-- Descriptor methods: catalog derived from the descriptor, validator that
accepts every descriptor. -/
def acceptAll : sqlbase.DescriptorMethods String :=
  ⟨fun desc => (sqlbase.catalogOf desc, none), fun _ => none⟩

/-- Descriptor methods: catalog derived from the descriptor, validator that
rejects every descriptor. -/
def rejectAll : sqlbase.DescriptorMethods String :=
  ⟨fun desc => (sqlbase.catalogOf desc, none), fun _ => some "invalid descriptor"⟩

/-- A planner over the single table `T`: resolution looks the name up and
fails on a missing table only when the table is required; the privilege check
passes exactly for the privileges in `grants`. -/
def samplePlanner (grants : List privilege.Kind) : planner String :=
  { tables := [("T", tableT)]
    ResolveMutableTableDescriptor := fun tables name required _ =>
      match tables.lookup name with
      | some desc => (some desc, none)
      | none => if required then (none, some "table does not exist") else (none, none)
    CheckPrivilege := fun _ priv =>
      if priv ∈ grants then none else some "user lacks privilege" }

/-! ## Auxiliary facts -/

/-- The text of the not-found error is never the text of the collision
error: the former ends in `t`, the latter in `s`. -/
theorem not_found_msg_ne_collision_msg (a b : String) :
    "constraint " ++ a ++ " does not exist" ≠ "constraint name " ++ b ++ " already exists" := by
  intro h
  have e1 : " does not exist" = " does not exis" ++ "t" := by decide
  have e2 : " already exists" = " already exist" ++ "s" := by decide
  rw [e1, e2, ← String.append_assoc, ← String.append_assoc] at h
  have h2 := congrArg (fun s => s.data.getLast?) h
  have l1 : ∀ x : String, (x ++ "t").data.getLast? = some 't' := by
    intro x
    rw [String.data_append]
    exact List.getLast?_concat x.data
  have l2 : ∀ x : String, (x ++ "s").data.getLast? = some 's' := by
    intro x
    rw [String.data_append]
    exact List.getLast?_concat x.data
  simp only [l1, l2] at h2
  exact absurd h2 (by decide)

/-- A lookup that succeeds does not pass the Go test `!ok`. -/
theorem not_isNone_of_isSome {α : Type} (o : Option α) (h : o.isSome = true) :
    ¬ o.isNone = true := by
  cases o with
  | none => exact absurd h (by simp)
  | some a => simp

/-- The descriptor behind `n.tableDesc` is the same after `startExec` as
before, whatever the outcome. -/
theorem startExec_tableDesc {E : Type} (d : sqlbase.DescriptorMethods E)
    (n : renameConstraintNode) :
    (renameConstraintNode.startExec d n).tableDesc = n.tableDesc := by
  unfold renameConstraintNode.startExec
  dsimp only
  split_ifs <;> first | rfl | (split <;> rfl)

/-! ## Execution: `renameConstraintNode.startExec` -/

/-- C1 (evaluation at the scenario of the claim): on table `T` with constraints
`pk` and `uq1`, where `uq1` is a key of the catalog and `uq2` is not, renaming
`uq1` to `uq2` under an accepting validator returns the error
"constraint name uq2 already exists", never reaches the validator, and leaves
the constraint list `[pk, uq1]`. -/
theorem startExec_rename_to_fresh_name_rejected :
    List.lookup "uq1" (acceptAll.GetConstraintInfo tableT).1 = some uq1Entry ∧
    List.lookup "uq2" (acceptAll.GetConstraintInfo tableT).1 = none ∧
    acceptAll.Validate tableT = none ∧
    (renameConstraintNode.startExec acceptAll ⟨⟨"T", "uq1", "uq2", false⟩, tableT⟩).err
      = some (fmt.Errorf "constraint name uq2 already exists") ∧
    (renameConstraintNode.startExec acceptAll ⟨⟨"T", "uq1", "uq2", false⟩, tableT⟩).calls
      = [call.GetConstraintInfo] ∧
    (renameConstraintNode.startExec acceptAll
      ⟨⟨"T", "uq1", "uq2", false⟩, tableT⟩).tableDesc.Constraints = [pkEntry, uq1Entry] := by
  refine ⟨?_, ?_, ?_, ?_, ?_, ?_⟩ <;> decide

/-- C2 (evaluation at the scenario of the claim): on table `T` with constraints
`pk` and `uq1`, renaming `uq1` to `pk`, the name of a different constraint,
under an accepting validator returns no error: the validator is reached and its
verdict is the result.  The constraint list stays `[pk, uq1]`. -/
theorem startExec_rename_to_used_name_accepted :
    List.lookup "uq1" (acceptAll.GetConstraintInfo tableT).1 = some uq1Entry ∧
    List.lookup "pk" (acceptAll.GetConstraintInfo tableT).1 = some pkEntry ∧
    (renameConstraintNode.startExec acceptAll ⟨⟨"T", "uq1", "pk", false⟩, tableT⟩).err
      = none ∧
    (renameConstraintNode.startExec acceptAll ⟨⟨"T", "uq1", "pk", false⟩, tableT⟩).calls
      = [call.GetConstraintInfo, call.Validate] ∧
    (renameConstraintNode.startExec acceptAll
      ⟨⟨"T", "uq1", "pk", false⟩, tableT⟩).tableDesc.Constraints = [pkEntry, uq1Entry] := by
  refine ⟨?_, ?_, ?_, ?_, ?_⟩ <;> decide

/-- C3: when the new name is non-empty and the old name is not a key of the
catalog, `startExec` returns the error "constraint <oldName> does not exist",
whatever the catalog says about the new name; the only collaborator call is the
catalog fetch (the validator is not called), and the descriptor is the one the
node had before the call. -/
theorem startExec_constraint_not_found {E : Type} (d : sqlbase.DescriptorMethods E)
    (n : renameConstraintNode) (hnew : n.n.NewName ≠ "")
    (hold : List.lookup n.n.Name (d.GetConstraintInfo n.tableDesc).1 = none) :
    (renameConstraintNode.startExec d n).err
      = some (fmt.Errorf ("constraint " ++ n.n.Name ++ " does not exist")) ∧
    (renameConstraintNode.startExec d n).calls = [call.GetConstraintInfo] ∧
    call.Validate ∉ (renameConstraintNode.startExec d n).calls ∧
    (renameConstraintNode.startExec d n).tableDesc = n.tableDesc := by
  have h : renameConstraintNode.startExec d n
      = ⟨some (fmt.Errorf ("constraint " ++ n.n.Name ++ " does not exist")), n.tableDesc,
          [call.GetConstraintInfo]⟩ := by
    unfold renameConstraintNode.startExec
    dsimp only
    rw [if_neg hnew, hold]
    rfl
  rw [h]
  exact ⟨rfl, rfl, by simp, rfl⟩

/-- C3 at table `T` with constraints `pk` and `uq1`, renaming `ck1` to `ck2`:
neither name is a key of the catalog. -/
theorem startExec_constraint_not_found_witness :
    ("ck2" ≠ "" ∧ List.lookup "ck1" (acceptAll.GetConstraintInfo tableT).1 = none) ∧
    ((renameConstraintNode.startExec acceptAll ⟨⟨"T", "ck1", "ck2", false⟩, tableT⟩).err
      = some (fmt.Errorf "constraint ck1 does not exist") ∧
    (renameConstraintNode.startExec acceptAll ⟨⟨"T", "ck1", "ck2", false⟩, tableT⟩).calls
      = [call.GetConstraintInfo] ∧
    call.Validate ∉
      (renameConstraintNode.startExec acceptAll ⟨⟨"T", "ck1", "ck2", false⟩, tableT⟩).calls ∧
    (renameConstraintNode.startExec acceptAll ⟨⟨"T", "ck1", "ck2", false⟩, tableT⟩).tableDesc
      = tableT) :=
  ⟨⟨by decide, by decide⟩,
    startExec_constraint_not_found acceptAll ⟨⟨"T", "ck1", "ck2", false⟩, tableT⟩
      (by decide) (by decide)⟩

/-- C4: when the new name is the empty string, `startExec` returns
`errEmptyConstraintName` for every descriptor, every old name and every pair of
descriptor methods; no collaborator is called (the catalog is not fetched and
the validator is not run), so the result does not depend on the catalog, and
the descriptor is the one the node had before the call. -/
theorem startExec_empty_new_name {E : Type} (d : sqlbase.DescriptorMethods E)
    (n : renameConstraintNode) (hnew : n.n.NewName = "") :
    (renameConstraintNode.startExec d n).err = some errEmptyConstraintName ∧
    (renameConstraintNode.startExec d n).calls = [] ∧
    (renameConstraintNode.startExec d n).tableDesc = n.tableDesc ∧
    (∀ d2 : sqlbase.DescriptorMethods E,
      (renameConstraintNode.startExec d2 n).err = (renameConstraintNode.startExec d n).err) := by
  have h : ∀ d2 : sqlbase.DescriptorMethods E, renameConstraintNode.startExec d2 n
      = ⟨some errEmptyConstraintName, n.tableDesc, []⟩ := by
    intro d2
    unfold renameConstraintNode.startExec
    dsimp only
    rw [if_pos hnew]
  refine ⟨?_, ?_, ?_, ?_⟩
  · rw [h d]
  · rw [h d]
  · rw [h d]
  · intro d2
    rw [h d2, h d]

/-- C4 at a table with zero constraints, renaming `uq1` to the empty string. -/
theorem startExec_empty_new_name_witness :
    ("" : String) = "" ∧
    ((renameConstraintNode.startExec acceptAll ⟨⟨"E", "uq1", "", false⟩, tableEmpty⟩).err
      = some errEmptyConstraintName ∧
    (renameConstraintNode.startExec acceptAll ⟨⟨"E", "uq1", "", false⟩, tableEmpty⟩).calls
      = [] ∧
    (renameConstraintNode.startExec acceptAll ⟨⟨"E", "uq1", "", false⟩, tableEmpty⟩).tableDesc
      = tableEmpty ∧
    (∀ d2 : sqlbase.DescriptorMethods String,
      (renameConstraintNode.startExec d2 ⟨⟨"E", "uq1", "", false⟩, tableEmpty⟩).err
        = (renameConstraintNode.startExec acceptAll
            ⟨⟨"E", "uq1", "", false⟩, tableEmpty⟩).err)) :=
  ⟨rfl, startExec_empty_new_name acceptAll ⟨⟨"E", "uq1", "", false⟩, tableEmpty⟩ rfl⟩

/-- C6: whenever `startExec` returns an error, the descriptor after the call is
the descriptor before the call, and so are its constraint list and the catalog
read off it; the error is the empty-name error, the not-found error, the
collision error or the validator's own error, and there is no fifth case. -/
theorem startExec_error_leaves_descriptor {E : Type} (d : sqlbase.DescriptorMethods E)
    (n : renameConstraintNode) (e : error E)
    (herr : (renameConstraintNode.startExec d n).err = some e) :
    ((renameConstraintNode.startExec d n).tableDesc = n.tableDesc ∧
      (renameConstraintNode.startExec d n).tableDesc.Constraints = n.tableDesc.Constraints ∧
      d.GetConstraintInfo (renameConstraintNode.startExec d n).tableDesc
        = d.GetConstraintInfo n.tableDesc) ∧
    (e = errEmptyConstraintName ∨
      e = fmt.Errorf ("constraint " ++ n.n.Name ++ " does not exist") ∨
      e = fmt.Errorf ("constraint name " ++ n.n.NewName ++ " already exists") ∨
      ∃ x, d.Validate n.tableDesc = some x ∧ e = error.ext x) := by
  refine ⟨⟨startExec_tableDesc d n, ?_, ?_⟩, ?_⟩
  · rw [startExec_tableDesc d n]
  · rw [startExec_tableDesc d n]
  · revert herr
    unfold renameConstraintNode.startExec
    dsimp only
    split_ifs
    · intro herr
      exact Or.inl (Option.some.inj herr).symm
    · intro herr
      exact Or.inr (Or.inl (Option.some.inj herr).symm)
    · intro herr
      exact Or.inr (Or.inr (Or.inl (Option.some.inj herr).symm))
    · cases hv : d.Validate n.tableDesc with
      | none => intro herr; simp at herr
      | some x =>
        intro herr
        exact Or.inr (Or.inr (Or.inr ⟨x, rfl, (Option.some.inj herr).symm⟩))

/-- C6 at table `T`, renaming `uq1` to `pk` under a validator that rejects:
the validator's error is returned and the descriptor is still `T`. -/
theorem startExec_error_leaves_descriptor_witness :
    (renameConstraintNode.startExec rejectAll ⟨⟨"T", "uq1", "pk", false⟩, tableT⟩).err
      = some (error.ext "invalid descriptor") ∧
    (renameConstraintNode.startExec rejectAll ⟨⟨"T", "uq1", "pk", false⟩, tableT⟩).tableDesc
      = tableT ∧
    (renameConstraintNode.startExec rejectAll
      ⟨⟨"T", "uq1", "pk", false⟩, tableT⟩).tableDesc.Constraints = [pkEntry, uq1Entry] :=
  have herr : (renameConstraintNode.startExec rejectAll
      ⟨⟨"T", "uq1", "pk", false⟩, tableT⟩).err = some (error.ext "invalid descriptor") := by
    decide
  have h := startExec_error_leaves_descriptor rejectAll ⟨⟨"T", "uq1", "pk", false⟩, tableT⟩
    (error.ext "invalid descriptor") herr
  ⟨herr, h.1.1, h.1.2.1⟩

/-- C7: when the request passes the three name tests of `startExec` (the new
name is non-empty, the old name is a key of the catalog, and the new name is a
key of the catalog, which is what the third test lets through), the validator
is called and decides the result: if it returns an error, `startExec` returns
that very error and the descriptor is the original one; if it accepts,
`startExec` returns no error. -/
theorem startExec_validator_decides {E : Type} (d : sqlbase.DescriptorMethods E)
    (n : renameConstraintNode) (hnew : n.n.NewName ≠ "")
    (hold : (List.lookup n.n.Name (d.GetConstraintInfo n.tableDesc).1).isSome = true)
    (hcoll : (List.lookup n.n.NewName (d.GetConstraintInfo n.tableDesc).1).isSome = true) :
    (renameConstraintNode.startExec d n).calls = [call.GetConstraintInfo, call.Validate] ∧
    (∀ x, d.Validate n.tableDesc = some x →
      (renameConstraintNode.startExec d n).err = some (error.ext x) ∧
      (renameConstraintNode.startExec d n).tableDesc = n.tableDesc) ∧
    (d.Validate n.tableDesc = none →
      (renameConstraintNode.startExec d n).err = none ∧
      (renameConstraintNode.startExec d n).tableDesc = n.tableDesc) := by
  have h1 : ¬ (List.lookup n.n.Name (d.GetConstraintInfo n.tableDesc).1).isNone = true :=
    not_isNone_of_isSome _ hold
  have h2 : ¬ (List.lookup n.n.NewName (d.GetConstraintInfo n.tableDesc).1).isNone = true :=
    not_isNone_of_isSome _ hcoll
  unfold renameConstraintNode.startExec
  dsimp only
  rw [if_neg hnew, if_neg h1, if_neg h2]
  cases hv : d.Validate n.tableDesc with
  | none => simp
  | some x => simp

/-- C7 at table `T`, request `uq1` to `pk` (both keys of the catalog) under a
validator that rejects every descriptor. -/
theorem startExec_validator_decides_witness :
    ("pk" ≠ "" ∧
      (List.lookup "uq1" (rejectAll.GetConstraintInfo tableT).1).isSome = true ∧
      (List.lookup "pk" (rejectAll.GetConstraintInfo tableT).1).isSome = true ∧
      rejectAll.Validate tableT = some "invalid descriptor") ∧
    (renameConstraintNode.startExec rejectAll ⟨⟨"T", "uq1", "pk", false⟩, tableT⟩).err
      = some (error.ext "invalid descriptor") ∧
    (renameConstraintNode.startExec rejectAll ⟨⟨"T", "uq1", "pk", false⟩, tableT⟩).tableDesc
      = tableT :=
  ⟨⟨by decide, by decide, by decide, rfl⟩,
    (startExec_validator_decides rejectAll ⟨⟨"T", "uq1", "pk", false⟩, tableT⟩
      (by decide) (by decide) (by decide)).2.1 "invalid descriptor" rfl⟩

/-- C8: when the new name equals the old name, is non-empty and is a key of the
catalog, and the validator accepts, `startExec` returns no error (so neither
the collision error nor any other) and the descriptor, with its constraint
list, is the one before the call. -/
theorem startExec_rename_to_same_name {E : Type} (d : sqlbase.DescriptorMethods E)
    (n : renameConstraintNode) (hsame : n.n.NewName = n.n.Name) (hnew : n.n.NewName ≠ "")
    (hold : (List.lookup n.n.Name (d.GetConstraintInfo n.tableDesc).1).isSome = true)
    (hvalid : d.Validate n.tableDesc = none) :
    (renameConstraintNode.startExec d n).err = none ∧
    (renameConstraintNode.startExec d n).err
      ≠ some (fmt.Errorf ("constraint name " ++ n.n.NewName ++ " already exists")) ∧
    (renameConstraintNode.startExec d n).tableDesc = n.tableDesc ∧
    (renameConstraintNode.startExec d n).tableDesc.Constraints = n.tableDesc.Constraints := by
  have h1 : ¬ (List.lookup n.n.Name (d.GetConstraintInfo n.tableDesc).1).isNone = true :=
    not_isNone_of_isSome _ hold
  have herr : (renameConstraintNode.startExec d n).err = none := by
    unfold renameConstraintNode.startExec
    dsimp only
    rw [if_neg hnew, hsame, if_neg h1, if_neg h1, hvalid]
  refine ⟨herr, ?_, startExec_tableDesc d n, ?_⟩
  · rw [herr]
    exact fun h => Option.noConfusion h
  · rw [startExec_tableDesc d n]

/-- C8 at table `T`, renaming `uq1` to `uq1` under an accepting validator. -/
theorem startExec_rename_to_same_name_witness :
    (("uq1" : String) = "uq1" ∧ "uq1" ≠ "" ∧
      (List.lookup "uq1" (acceptAll.GetConstraintInfo tableT).1).isSome = true ∧
      acceptAll.Validate tableT = none) ∧
    ((renameConstraintNode.startExec acceptAll ⟨⟨"T", "uq1", "uq1", false⟩, tableT⟩).err
      = none ∧
    (renameConstraintNode.startExec acceptAll ⟨⟨"T", "uq1", "uq1", false⟩, tableT⟩).err
      ≠ some (fmt.Errorf ("constraint name " ++ "uq1" ++ " already exists")) ∧
    (renameConstraintNode.startExec acceptAll ⟨⟨"T", "uq1", "uq1", false⟩, tableT⟩).tableDesc
      = tableT ∧
    (renameConstraintNode.startExec acceptAll
      ⟨⟨"T", "uq1", "uq1", false⟩, tableT⟩).tableDesc.Constraints
        = tableT.Constraints) :=
  ⟨⟨rfl, by decide, by decide, rfl⟩,
    startExec_rename_to_same_name acceptAll ⟨⟨"T", "uq1", "uq1", false⟩, tableT⟩
      rfl (by decide) (by decide) rfl⟩

/-- C10: `startExec` returns the error "constraint name <newName> already
exists" exactly when the new name is non-empty, the old name is a key of the
catalog and the new name is not a key of the catalog; the validator is called
exactly when the new name is non-empty and both names are keys of the catalog;
and in every outcome, success included, the descriptor and its constraint list
are the ones before the call. -/
theorem startExec_collision_check_inverted {E : Type} (d : sqlbase.DescriptorMethods E)
    (n : renameConstraintNode) :
    ((renameConstraintNode.startExec d n).err
        = some (fmt.Errorf ("constraint name " ++ n.n.NewName ++ " already exists")) ↔
      n.n.NewName ≠ "" ∧
      (List.lookup n.n.Name (d.GetConstraintInfo n.tableDesc).1).isSome = true ∧
      List.lookup n.n.NewName (d.GetConstraintInfo n.tableDesc).1 = none) ∧
    (call.Validate ∈ (renameConstraintNode.startExec d n).calls ↔
      n.n.NewName ≠ "" ∧
      (List.lookup n.n.Name (d.GetConstraintInfo n.tableDesc).1).isSome = true ∧
      (List.lookup n.n.NewName (d.GetConstraintInfo n.tableDesc).1).isSome = true) ∧
    (renameConstraintNode.startExec d n).tableDesc = n.tableDesc ∧
    (renameConstraintNode.startExec d n).tableDesc.Constraints = n.tableDesc.Constraints := by
  refine ⟨?_, ?_, startExec_tableDesc d n, by rw [startExec_tableDesc d n]⟩
  · unfold renameConstraintNode.startExec
    dsimp only
    by_cases h0 : n.n.NewName = ""
    · simp [h0, errEmptyConstraintName, fmt.Errorf]
    · rw [if_neg h0]
      cases h1 : List.lookup n.n.Name (d.GetConstraintInfo n.tableDesc).1 with
      | none => simp [h0, fmt.Errorf, not_found_msg_ne_collision_msg]
      | some e1 =>
        cases h2 : List.lookup n.n.NewName (d.GetConstraintInfo n.tableDesc).1 with
        | none => simp [h0, fmt.Errorf]
        | some e2 => cases h3 : d.Validate n.tableDesc <;> simp [h0, fmt.Errorf]
  · unfold renameConstraintNode.startExec
    dsimp only
    by_cases h0 : n.n.NewName = ""
    · simp [h0]
    · rw [if_neg h0]
      cases h1 : List.lookup n.n.Name (d.GetConstraintInfo n.tableDesc).1 with
      | none => simp [h0]
      | some e1 =>
        cases h2 : List.lookup n.n.NewName (d.GetConstraintInfo n.tableDesc).1 with
        | none => simp [h0]
        | some e2 => cases h3 : d.Validate n.tableDesc <;> simp [h0]

/-! ## Planning: `planner.RenameConstraint` -/

/-- C5: when the statement carries `IF EXISTS` and resolution of the table
(called with `required = false`) returns no descriptor and no error,
`RenameConstraint` returns the zero node built by `newZeroNode(nil)` and no
error; the resolution is the only collaborator call, so there is no privilege
check, no catalog fetch and no validator run, and the planner's descriptors are
the ones before the call. -/
theorem RenameConstraint_if_exists_missing_table {E : Type} (p : planner E)
    (n : tree.RenameConstraint) (hif : n.IfExists = true)
    (hres : p.ResolveMutableTableDescriptor p.tables n.Table false
      requiredType.requireTableDesc = (none, none)) :
    (p.RenameConstraint n).node = some (newZeroNode none) ∧
    (p.RenameConstraint n).err = none ∧
    (p.RenameConstraint n).calls
      = [call.ResolveMutableTableDescriptor n.Table false requiredType.requireTableDesc] ∧
    (∀ t k, call.CheckPrivilege t k ∉ (p.RenameConstraint n).calls) ∧
    call.GetConstraintInfo ∉ (p.RenameConstraint n).calls ∧
    call.Validate ∉ (p.RenameConstraint n).calls ∧
    (p.RenameConstraint n).tables = p.tables := by
  have h : p.RenameConstraint n
      = ⟨some (newZeroNode none), none, p.tables,
          [call.ResolveMutableTableDescriptor n.Table false requiredType.requireTableDesc]⟩ := by
    unfold planner.RenameConstraint
    simp only [hif, Bool.not_true, hres]
  rw [h]
  refine ⟨rfl, rfl, rfl, ?_, ?_, ?_, rfl⟩ <;> simp

/-- C5 at a planner that knows only table `T`: the statement
`ALTER TABLE missing RENAME CONSTRAINT uq1 TO uq2 IF EXISTS`. -/
theorem RenameConstraint_if_exists_missing_table_witness :
    ((samplePlanner []).ResolveMutableTableDescriptor (samplePlanner []).tables "missing" false
      requiredType.requireTableDesc = (none, none)) ∧
    ((samplePlanner []).RenameConstraint ⟨"missing", "uq1", "uq2", true⟩).node
      = some (planNode.zeroNode none) ∧
    ((samplePlanner []).RenameConstraint ⟨"missing", "uq1", "uq2", true⟩).err = none ∧
    ((samplePlanner []).RenameConstraint ⟨"missing", "uq1", "uq2", true⟩).calls
      = [call.ResolveMutableTableDescriptor "missing" false requiredType.requireTableDesc] ∧
    ((samplePlanner []).RenameConstraint ⟨"missing", "uq1", "uq2", true⟩).tables
      = [("T", tableT)] :=
  have h := RenameConstraint_if_exists_missing_table (samplePlanner [])
    ⟨"missing", "uq1", "uq2", true⟩ rfl (by decide)
  ⟨by decide, h.1, h.2.1, h.2.2.1, h.2.2.2.2.2.2⟩

/-- C9: for a table that resolves (descriptor, no error), `RenameConstraint`
returns a rename node exactly when the check of `CREATE` on that descriptor
succeeds, the node then carries the statement and the resolved descriptor and
comes with no error, and the check is made before; when the check returns an
error, that error is returned with no plan node; when resolution returns an
error, that error is returned with no plan node and no privilege check. -/
theorem RenameConstraint_requires_create {E : Type} (p : planner E)
    (n : tree.RenameConstraint) :
    (∀ tableDesc,
      p.ResolveMutableTableDescriptor p.tables n.Table (!n.IfExists)
        requiredType.requireTableDesc = (some tableDesc, none) →
      ((∃ node, (p.RenameConstraint n).node = some (planNode.renameConstraint node)) ↔
        p.CheckPrivilege tableDesc privilege.Kind.CREATE = none) ∧
      (p.CheckPrivilege tableDesc privilege.Kind.CREATE = none →
        (p.RenameConstraint n).node = some (planNode.renameConstraint ⟨n, tableDesc⟩) ∧
        (p.RenameConstraint n).err = none) ∧
      (∀ e, p.CheckPrivilege tableDesc privilege.Kind.CREATE = some e →
        (p.RenameConstraint n).node = none ∧
        (p.RenameConstraint n).err = some (error.ext e)) ∧
      (p.RenameConstraint n).calls
        = [call.ResolveMutableTableDescriptor n.Table (!n.IfExists)
              requiredType.requireTableDesc,
            call.CheckPrivilege tableDesc.Name privilege.Kind.CREATE]) ∧
    (∀ desc e,
      p.ResolveMutableTableDescriptor p.tables n.Table (!n.IfExists)
        requiredType.requireTableDesc = (desc, some e) →
      (p.RenameConstraint n).node = none ∧
      (p.RenameConstraint n).err = some (error.ext e) ∧
      (p.RenameConstraint n).calls
        = [call.ResolveMutableTableDescriptor n.Table (!n.IfExists)
              requiredType.requireTableDesc]) := by
  constructor
  · intro tableDesc hres
    unfold planner.RenameConstraint
    simp only [hres]
    cases hc : p.CheckPrivilege tableDesc privilege.Kind.CREATE with
    | none => simp
    | some e => simp
  · intro desc e hres
    unfold planner.RenameConstraint
    simp [hres]

/-- C9 at a planner over table `T`: with `CREATE` granted the rename node for
`T` is returned; with only `INSERT` granted the privilege error is returned and
no node; on a missing table without `IF EXISTS` the resolution error is
returned and no node. -/
theorem RenameConstraint_requires_create_witness :
    (((samplePlanner [privilege.Kind.CREATE]).RenameConstraint ⟨"T", "uq1", "uq2", false⟩).node
        = some (planNode.renameConstraint ⟨⟨"T", "uq1", "uq2", false⟩, tableT⟩) ∧
      ((samplePlanner [privilege.Kind.CREATE]).RenameConstraint ⟨"T", "uq1", "uq2", false⟩).err
        = none) ∧
    (((samplePlanner [privilege.Kind.INSERT]).RenameConstraint ⟨"T", "uq1", "uq2", false⟩).node
        = none ∧
      ((samplePlanner [privilege.Kind.INSERT]).RenameConstraint ⟨"T", "uq1", "uq2", false⟩).err
        = some (error.ext "user lacks privilege")) ∧
    (((samplePlanner [privilege.Kind.CREATE]).RenameConstraint
        ⟨"missing", "uq1", "uq2", false⟩).node = none ∧
      ((samplePlanner [privilege.Kind.CREATE]).RenameConstraint
        ⟨"missing", "uq1", "uq2", false⟩).err = some (error.ext "table does not exist") ∧
      ((samplePlanner [privilege.Kind.CREATE]).RenameConstraint
        ⟨"missing", "uq1", "uq2", false⟩).calls
          = [call.ResolveMutableTableDescriptor "missing" true
              requiredType.requireTableDesc]) :=
  ⟨((RenameConstraint_requires_create (samplePlanner [privilege.Kind.CREATE])
      ⟨"T", "uq1", "uq2", false⟩).1 tableT (by decide)).2.1 (by decide),
    ((RenameConstraint_requires_create (samplePlanner [privilege.Kind.INSERT])
      ⟨"T", "uq1", "uq2", false⟩).1 tableT (by decide)).2.2.1 "user lacks privilege"
        (by decide),
    (RenameConstraint_requires_create (samplePlanner [privilege.Kind.CREATE])
      ⟨"missing", "uq1", "uq2", false⟩).2 none "table does not exist" (by decide)⟩

end sql
